import Mathlib

/-!
Verification of the run-visuals track segmentation core.

The repository has two parallel implementations of the section builder:
`section.py` (`Section.from_gpx_track`, with duplicate / speed / idle
filters over raw lat-long points and an external surface-distance
function) and `run.py` (`Section.process_section`, with duplicate / idle
filters over Web-Mercator-projected planar points and a planar Euclidean
distance).  Both are embedded below, each in its own namespace, together
with the bounds and projection helpers the claims are about.
-/

deriving instance DecidableEq for Except

namespace SectionPy

/-- `SectionPoint` of `section.py`: latitude, longitude, elevation
(degrees / meters) and timestamp (seconds since epoch).  Numeric fields
are modelled as rationals so the builder is fully executable. -/
structure SectionPoint where
  lat : ℚ
  long : ℚ
  elev : ℚ
  time : ℚ
deriving DecidableEq

/-- `SectionStats` of `section.py`: cumulative distance in meters. -/
structure SectionStats where
  distance : ℚ
deriving DecidableEq

/-- `SectionBounds` of `section.py`: an axis-aligned lat/long rectangle. -/
structure SectionBounds where
  lat_min : ℚ
  lat_max : ℚ
  long_min : ℚ
  long_max : ℚ
deriving DecidableEq

/-- `SectionBounds.from_point`: degenerate rectangle at one point. -/
def SectionBounds.from_point (p : SectionPoint) : SectionBounds :=
  ⟨p.lat, p.lat, p.long, p.long⟩

/-- The body of the `for point in points` loop inside
`SectionBounds.expand` (source lines 155-164): the source mutates
`self` in place with an `if`/`elif` pair per axis; the model returns the
updated bounds value. -/
def SectionBounds.expandPoint (b : SectionBounds) (p : SectionPoint) : SectionBounds :=
  let b1 := if p.lat < b.lat_min then { b with lat_min := p.lat }
            else if p.lat > b.lat_max then { b with lat_max := p.lat }
            else b
  if p.long < b1.long_min then { b1 with long_min := p.long }
  else if p.long > b1.long_max then { b1 with long_max := p.long }
  else b1

/-- `SectionBounds.expand` (source lines 144-164).  The Python argument
is `Union[SectionPoint, SectionBounds]`, dispatched with `type(...) ==`
checks; the model uses a sum type.  For a bounds argument the source
builds the two corner points `(lat_min, long_min, 0, 0)` and
`(lat_max, long_max, 0, 0)` and expands with each in order. -/
def SectionBounds.expand (b : SectionBounds) (w : SectionPoint ⊕ SectionBounds) : SectionBounds :=
  match w with
  | .inl p => b.expandPoint p
  | .inr ob =>
      (b.expandPoint ⟨ob.lat_min, ob.long_min, 0, 0⟩).expandPoint
        ⟨ob.lat_max, ob.long_max, 0, 0⟩

/-- `Section` of `section.py`. -/
structure Section where
  name : String
  points : List SectionPoint
  stats : SectionStats
  bounds : SectionBounds
deriving DecidableEq

/-- The two ways `Section.from_gpx_track` can raise: indexing
`gpx_points[0]` on an empty list (IndexError) and the division
`distance / elapsed` when `elapsed == 0` (ZeroDivisionError). -/
inductive Err
  | indexError
  | zeroDivisionError
deriving DecidableEq

/-- The state `from_gpx_track` holds when its loop finishes.
`prev :: accRev` is `collected_points` in reverse order (`prev` is
`collected_points[-1]`, the last accepted point); `remaining` is the
value of `gpx_points[point_idx + 2 :]` computed at the return. -/
structure LoopOut where
  prev : SectionPoint
  accRev : List SectionPoint
  bounds : SectionBounds
  dist_total : ℚ
  remaining : List SectionPoint
deriving DecidableEq

/-- The `for point_idx, point in enumerate(gpx_points[1:])` loop of
`Section.from_gpx_track` (source lines 53-96).  Arguments after `pts`
(the full input list, free in the source's closing
`gpx_points[point_idx + 2 :]`): the unprocessed tail, the current
enumerate index `i`, the last accepted point `prev`
(`collected_points[-1]`), the earlier accepted points in reverse order,
the bounds, the accumulated distance, and `li`, the value the variable
`point_idx` holds from the previous iteration (initially 0).  On the
idle break the source does `point_idx -= 1; break`, so the suffix
returned there is `gpx_points[(i - 1) + 2 :] = gpx_points[i + 1 :]`. -/
def fromGpxLoop (dist : SectionPoint → SectionPoint → ℚ)
    (min_spacing max_speed max_idle : ℚ) (pts : List SectionPoint) :
    List SectionPoint → ℕ → SectionPoint → List SectionPoint →
    SectionBounds → ℚ → ℕ → Except Err LoopOut
  | [], _, prev, accRev, b, s, li => .ok ⟨prev, accRev, b, s, pts.drop (li + 2)⟩
  | p :: rest, i, prev, accRev, b, s, _ =>
    let d := dist p prev
    if d < min_spacing then
      fromGpxLoop dist min_spacing max_speed max_idle pts rest (i + 1) prev accRev b s i
    else if p.time - prev.time = 0 then
      .error .zeroDivisionError
    else if d / (p.time - prev.time) > max_speed then
      fromGpxLoop dist min_spacing max_speed max_idle pts rest (i + 1) prev accRev b s i
    else if p.time - prev.time > max_idle then
      .ok ⟨prev, accRev, b, s, pts.drop (i + 1)⟩
    else
      fromGpxLoop dist min_spacing max_speed max_idle pts rest (i + 1) p (prev :: accRev)
        (b.expandPoint p) (s + d) i

/-- `Section.from_gpx_track` (source lines 21-96), parametrized over the
external surface-distance function `gpxpy.geo.distance` (library code,
not part of this repository).  The first point is accepted
unconditionally; the loop runs over the tail; the returned remainder is
`gpx_points[point_idx + 2 :]`. -/
def from_gpx_track (dist : SectionPoint → SectionPoint → ℚ) (name : String)
    (min_spacing max_speed max_idle : ℚ) :
    List SectionPoint → Except Err (Section × List SectionPoint)
  | [] => .error .indexError
  | p0 :: tail =>
    match fromGpxLoop dist min_spacing max_speed max_idle (p0 :: tail) tail 0 p0 []
        (SectionBounds.from_point p0) 0 0 with
    | .error e => .error e
    | .ok out =>
        .ok (⟨name, (out.prev :: out.accRev).reverse, ⟨out.dist_total⟩, out.bounds⟩,
          out.remaining)

end SectionPy

namespace RunPy

/-- `Point` of `run.py`: a planar x-y position in meters. -/
structure Point where
  x : ℝ
  y : ℝ

/-- `Point.distance` (run.py lines 200-209):
`math.sqrt(math.pow(self.x - point.x, 2) + math.pow(self.y - point.y, 2))`. -/
noncomputable def Point.distance (a b : Point) : ℝ :=
  Real.sqrt ((a.x - b.x) ^ 2 + (a.y - b.y) ^ 2)

/-- `math.radians`: degrees to radians, `deg * (pi / 180)`. -/
noncomputable def radians (deg : ℝ) : ℝ := deg * (Real.pi / 180)

/-- The `EARTH_RADIUS_M = 6.3781e6` constant shared by both projection
functions in the source. -/
noncomputable def EARTH_RADIUS_M : ℝ := 6.3781e6

/-- `Point.web_mercator` (run.py lines 180-198), as a function of the
GPX point's latitude and longitude (the only fields it reads). -/
noncomputable def Point.web_mercator (lat long : ℝ) : Point :=
  ⟨radians long * EARTH_RADIUS_M,
   Real.log (Real.tan (Real.pi / 4 + radians lat / 2)) * EARTH_RADIUS_M⟩

/-- `SectionPoint` of `run.py`: projected position, elevation, time.
The `extensions` dictionary is only copied through, never read by the
segmentation logic, and is omitted. -/
structure SectionPoint where
  position : Point
  elevation : ℝ
  time : ℝ

/-- `Section` of `run.py`: points, (lower, upper) bounds pair, total
distance. -/
structure Section where
  points : List SectionPoint
  bounds : Point × Point
  distance : ℝ

/-- The state `process_section` holds when its loop finishes.
`prev :: projRev` is the `projected` list in reverse order; `remaining`
is `gpx_points[(point_id + 2):]` computed at the return. -/
structure LoopOut where
  prev : SectionPoint
  projRev : List SectionPoint
  lower : Point
  upper : Point
  total : ℝ
  remaining : List SectionPoint

/-- The `for point_id, point in enumerate(gpx_points[1:])` loop of
`Section.process_section` (run.py lines 97-138).  Arguments after `pts`
(the full input, free in the closing `gpx_points[(point_id + 2):]`):
the unprocessed tail, the enumerate index `i`, the last appended point
`prev` (`projected[-1]`), the earlier points in reverse, the running
lower/upper bounds, the running total distance, the `ommitted_total`
and `ommitted_count` diagnostics, and `li`, the value of the variable
`point_id` from the previous iteration (initially 0).  Note the source
adds `dist_from_prev` to `total_distance` *before* the idle-threshold
check, and the idle break does `point_id -= 1; break`, so the suffix
returned there is `gpx_points[(i - 1) + 2:] = gpx_points[i + 1:]`. -/
noncomputable def processLoop (duplicate_thresh idle_thresh : ℝ)
    (pts : List SectionPoint) :
    List SectionPoint → ℕ → SectionPoint → List SectionPoint →
    Point → Point → ℝ → ℝ → ℕ → ℕ → LoopOut
  | [], _, prev, projRev, lower, upper, total, _, _, li =>
      ⟨prev, projRev, lower, upper, total, pts.drop (li + 2)⟩
  | p :: rest, i, prev, projRev, lower, upper, total, ot, oc, _ =>
    let d := p.position.distance prev.position
    if d ≤ duplicate_thresh then
      processLoop duplicate_thresh idle_thresh pts rest (i + 1) prev projRev lower upper
        total (ot + d) (oc + 1) i
    else
      let total := total + d
      if p.time - prev.time > idle_thresh then
        ⟨prev, projRev, lower, upper, total, pts.drop (i + 1)⟩
      else
        let upper := if p.position.x > upper.x then { upper with x := p.position.x } else upper
        let upper := if p.position.y > upper.y then { upper with y := p.position.y } else upper
        let lower := if p.position.x < lower.x then { lower with x := p.position.x } else lower
        let lower := if p.position.y < lower.y then { lower with y := p.position.y } else lower
        processLoop duplicate_thresh idle_thresh pts rest (i + 1) p (prev :: projRev)
          lower upper total ot oc i

/-- `Section.process_section` (run.py lines 65-138), stated over the
already-converted `SectionPoint`s (the source converts each GPX point
with `SectionPoint.from_gpx_point`, a field-for-field copy whose
position is `Point.web_mercator`, embedded above; the loop logic never
reads the raw point again).  Returns `none` for the empty input, where
the source's `gpx_points[0]` raises IndexError. -/
noncomputable def process_section (duplicate_thresh idle_thresh : ℝ) :
    List SectionPoint → Option (Section × List SectionPoint)
  | [] => none
  | p0 :: tail =>
    let out := processLoop duplicate_thresh idle_thresh (p0 :: tail) tail 0 p0 []
      p0.position p0.position 0 0 0 0
    some (⟨(out.prev :: out.projRev).reverse, (out.lower, out.upper), out.total⟩,
      out.remaining)

end RunPy

namespace SectionPy

/-- `project_web_mercator` (section.py lines 119-125); identical formula
to `run.py`'s `Point.web_mercator`. -/
noncomputable def project_web_mercator (lat long : ℝ) : ℝ × ℝ :=
  (RunPy.radians long * RunPy.EARTH_RADIUS_M,
   Real.log (Real.tan (Real.pi / 4 + RunPy.radians lat / 2)) * RunPy.EARTH_RADIUS_M)

end SectionPy

/-- Modelled from the spec: the projection formula of spec section 4.1,
`x = radians(longitude) * R`, `y = ln(tan(pi/4 + radians(latitude)/2)) * R`
with the Earth radius constant R = 6,378,100 meters, to be compared
with the source's `project_web_mercator` and `Point.web_mercator`. -/
noncomputable def specProject (lat long : ℝ) : ℝ × ℝ :=
  (RunPy.radians long * 6378100,
   Real.log (Real.tan (Real.pi / 4 + RunPy.radians lat / 2)) * 6378100)

namespace SectionPy

/-- One `expandPoint` call only widens the rectangle. -/
lemma expandPoint_mono (b : SectionBounds) (p : SectionPoint) :
    (b.expandPoint p).lat_min ≤ b.lat_min ∧ b.lat_max ≤ (b.expandPoint p).lat_max ∧
    (b.expandPoint p).long_min ≤ b.long_min ∧ b.long_max ≤ (b.expandPoint p).long_max := by
  simp only [SectionBounds.expandPoint]
  split_ifs <;> simp_all <;> first
    | linarith
    | constructor <;> linarith

/-- One `expand` call (with a point or with another bounds) only widens
the rectangle. -/
lemma expand_mono (b : SectionBounds) (w : SectionPoint ⊕ SectionBounds) :
    (b.expand w).lat_min ≤ b.lat_min ∧ b.lat_max ≤ (b.expand w).lat_max ∧
    (b.expand w).long_min ≤ b.long_min ∧ b.long_max ≤ (b.expand w).long_max := by
  cases w with
  | inl p => exact expandPoint_mono b p
  | inr ob =>
    have h1 := expandPoint_mono b ⟨ob.lat_min, ob.long_min, 0, 0⟩
    have h2 := expandPoint_mono (b.expandPoint ⟨ob.lat_min, ob.long_min, 0, 0⟩)
      ⟨ob.lat_max, ob.long_max, 0, 0⟩
    simp only [SectionBounds.expand]
    exact ⟨le_trans h2.1 h1.1, le_trans h1.2.1 h2.2.1,
      le_trans h2.2.2.1 h1.2.2.1, le_trans h1.2.2.2 h2.2.2.2⟩

/-- Claim C6: for every `SectionBounds` and every sequence of `expand`
calls (with single points or with other bounds), `lat_min` and
`long_min` never increase and `lat_max` and `long_max` never decrease:
`expand` only widens the rectangle, never shrinks it. -/
theorem bounds_expand_monotone (b : SectionBounds)
    (ws : List (SectionPoint ⊕ SectionBounds)) :
    (ws.foldl SectionBounds.expand b).lat_min ≤ b.lat_min ∧
    b.lat_max ≤ (ws.foldl SectionBounds.expand b).lat_max ∧
    (ws.foldl SectionBounds.expand b).long_min ≤ b.long_min ∧
    b.long_max ≤ (ws.foldl SectionBounds.expand b).long_max := by
  induction ws generalizing b with
  | nil => simp
  | cons w ws ih =>
    have h1 := expand_mono b w
    have h2 := ih (b.expand w)
    simp only [List.foldl_cons]
    exact ⟨le_trans h2.1 h1.1, le_trans h1.2.1 h2.2.1,
      le_trans h2.2.2.1 h1.2.2.1, le_trans h1.2.2.2 h2.2.2.2⟩

/-- Claim C8: a one-point input yields a section containing exactly that
point, with zero cumulative distance, degenerate bounds equal to the
point's coordinates, and an empty remaining list. -/
theorem single_point_section (dist : SectionPoint → SectionPoint → ℚ)
    (name : String) (ms mxs mi : ℚ) (p : SectionPoint) :
    from_gpx_track dist name ms mxs mi [p] =
      .ok (⟨name, [p], ⟨0⟩, ⟨p.lat, p.lat, p.long, p.long⟩⟩, []) := rfl

end SectionPy

/-- Claim C9: the planar distance of `run.py` is symmetric and returns
zero for identical points. -/
theorem distance_symm_and_zero :
    (∀ a b : RunPy.Point, a.distance b = b.distance a) ∧
    (∀ a : RunPy.Point, a.distance a = 0) := by
  constructor
  · intro a b
    unfold RunPy.Point.distance
    congr 1
    ring
  · intro a
    simp [RunPy.Point.distance]

/-- Claim C7: for every latitude strictly within (-90, 90) degrees and
every longitude, both projection functions of the source return exactly
the spec formula `(radians(longitude) * R, ln(tan(pi/4 +
radians(latitude)/2)) * R)` with R = 6,378,100 meters. -/
theorem projection_matches_spec (lat long : ℝ) (_h1 : -90 < lat) (_h2 : lat < 90) :
    SectionPy.project_web_mercator lat long = specProject lat long ∧
    (RunPy.Point.web_mercator lat long).x = (specProject lat long).1 ∧
    (RunPy.Point.web_mercator lat long).y = (specProject lat long).2 := by
  have hR : RunPy.EARTH_RADIUS_M = 6378100 := by norm_num [RunPy.EARTH_RADIUS_M]
  refine ⟨?_, ?_, ?_⟩ <;>
    simp [SectionPy.project_web_mercator, specProject, RunPy.Point.web_mercator, hR]

/-- Witness for C7 at latitude 0, longitude 0. -/
theorem projection_matches_spec_witness :
    (-90 : ℝ) < 0 ∧ (0 : ℝ) < 90 ∧
    (SectionPy.project_web_mercator 0 0 = specProject 0 0 ∧
     (RunPy.Point.web_mercator 0 0).x = (specProject 0 0).1 ∧
     (RunPy.Point.web_mercator 0 0).y = (specProject 0 0).2) :=
  ⟨by norm_num, by norm_num, projection_matches_spec 0 0 (by norm_num) (by norm_num)⟩

/-- Claim C2, refuted on the code: `from_gpx_track` on two points with
strictly decreasing timestamps (10 s then 5 s, 5 m apart, default
thresholds) silently accepts the second point — the negative speed
-1 m/s passes the `speed > max_speed` filter and the negative elapsed
time passes the `elapsed > max_idle` check — returning a normal section
instead of surfacing a data-quality error; and on two points with equal
timestamps it hits the bare division by zero (the uncaught
ZeroDivisionError of `distance / elapsed`), not a distinct
data-quality error. -/
theorem negative_elapsed_silently_accepted :
    (SectionPy.from_gpx_track (fun _ _ => 5) "s" 1 10 30
        [⟨0, 0, 0, 10⟩, ⟨1, 1, 0, 5⟩] =
      .ok (⟨"s", [⟨0, 0, 0, 10⟩, ⟨1, 1, 0, 5⟩], ⟨5⟩, ⟨0, 1, 0, 1⟩⟩, [])) ∧
    (SectionPy.from_gpx_track (fun _ _ => 5) "s" 1 10 30
        [⟨0, 0, 0, 10⟩, ⟨1, 1, 0, 10⟩] =
      .error .zeroDivisionError) := by
  constructor <;>
    norm_num [SectionPy.from_gpx_track, SectionPy.fromGpxLoop,
      SectionPy.SectionBounds.from_point, SectionPy.SectionBounds.expandPoint]

/-- Claim C4, refuted on `run.py`'s builder: `process_section` on two
projected points 2 m apart with timestamps 0 s and 100 s
(duplicate_thresh = 1, idle_thresh = 15) adds the 2 m step to
`total_distance` *before* the idle check excludes the second point, and
returns a one-point section whose stored distance is 2, although the
sum of per-step distances between consecutively accepted points of a
one-point section is 0. -/
theorem idle_break_distance_still_counted :
    RunPy.process_section 1 15 [⟨⟨0, 0⟩, 0, 0⟩, ⟨⟨0, 2⟩, 0, 100⟩] =
      some (⟨[⟨⟨0, 0⟩, 0, 0⟩], (⟨0, 0⟩, ⟨0, 0⟩), 2⟩, [⟨⟨0, 2⟩, 0, 100⟩]) ∧
    (2 : ℝ) ≠ 0 := by
  have hd : RunPy.Point.distance ⟨0, 2⟩ ⟨0, 0⟩ = 2 := by
    simp only [RunPy.Point.distance]
    rw [show ((0 : ℝ) - 0) ^ 2 + ((2 : ℝ) - 0) ^ 2 = 2 ^ 2 by norm_num]
    exact Real.sqrt_sq (by norm_num)
  refine ⟨?_, by norm_num⟩
  simp only [RunPy.process_section, RunPy.processLoop]
  norm_num [hd]

/-- Claim C1: in both builders, a subsequent point whose distance to the
last accepted point is strictly below the duplicate threshold is
discarded — the loop continues on the rest of the input with the last
accepted point, the collected list, the bounds and the distance total
all unchanged, so every later point is compared against the last
accepted point and never against the discarded one.  (In `run.py` only
the logging diagnostics `ommitted_total` and `ommitted_count` change.) -/
theorem duplicate_filter_discards :
    (∀ (dist : SectionPy.SectionPoint → SectionPy.SectionPoint → ℚ)
       (ms mxs mi : ℚ) (pts rest : List SectionPy.SectionPoint)
       (i : ℕ) (prev : SectionPy.SectionPoint) (accRev : List SectionPy.SectionPoint)
       (b : SectionPy.SectionBounds) (s : ℚ) (li : ℕ) (p : SectionPy.SectionPoint),
      dist p prev < ms →
      SectionPy.fromGpxLoop dist ms mxs mi pts (p :: rest) i prev accRev b s li =
        SectionPy.fromGpxLoop dist ms mxs mi pts rest (i + 1) prev accRev b s i) ∧
    (∀ (dt it : ℝ) (pts rest : List RunPy.SectionPoint) (i : ℕ)
       (prev : RunPy.SectionPoint) (projRev : List RunPy.SectionPoint)
       (lower upper : RunPy.Point) (total ot : ℝ) (oc li : ℕ) (p : RunPy.SectionPoint),
      RunPy.Point.distance p.position prev.position < dt →
      RunPy.processLoop dt it pts (p :: rest) i prev projRev lower upper total ot oc li =
        RunPy.processLoop dt it pts rest (i + 1) prev projRev lower upper total
          (ot + RunPy.Point.distance p.position prev.position) (oc + 1) i) := by
  constructor
  · intro dist ms mxs mi pts rest i prev accRev b s li p h
    simp only [SectionPy.fromGpxLoop]
    rw [if_pos h]
  · intro dt it pts rest i prev projRev lower upper total ot oc li p h
    simp only [RunPy.processLoop]
    rw [if_pos (le_of_lt h)]

/-- Witness for C1: a zero-distance point against thresholds of 1. -/
theorem duplicate_filter_discards_witness :
    (SectionPy.fromGpxLoop (fun _ _ => 0) 1 10 30 [] [⟨0, 0, 0, 0⟩] 0 ⟨0, 0, 0, 0⟩ []
        ⟨0, 0, 0, 0⟩ 0 0 =
      SectionPy.fromGpxLoop (fun _ _ => 0) 1 10 30 [] [] 1 ⟨0, 0, 0, 0⟩ []
        ⟨0, 0, 0, 0⟩ 0 0) ∧
    (RunPy.processLoop 1 15 [] [⟨⟨0, 0⟩, 0, 0⟩] 0 ⟨⟨0, 0⟩, 0, 0⟩ [] ⟨0, 0⟩ ⟨0, 0⟩ 0 0 0 0 =
      RunPy.processLoop 1 15 [] [] 1 ⟨⟨0, 0⟩, 0, 0⟩ [] ⟨0, 0⟩ ⟨0, 0⟩ 0
        (0 + RunPy.Point.distance ⟨0, 0⟩ ⟨0, 0⟩) 1 0) :=
  ⟨duplicate_filter_discards.1 _ _ _ _ _ _ _ _ _ _ _ _ _ (by norm_num),
   duplicate_filter_discards.2 _ _ _ _ _ _ _ _ _ _ _ _ _ _
     (by simp [RunPy.Point.distance])⟩

/-- The loop of `from_gpx_track` only ever appends to the collected
list: the earliest accepted point (the last entry of the reversed
representation) never changes. -/
lemma fromGpxLoop_getLast (dist : SectionPy.SectionPoint → SectionPy.SectionPoint → ℚ)
    (ms mxs mi : ℚ) (pts : List SectionPy.SectionPoint) :
    ∀ (tail : List SectionPy.SectionPoint) (i : ℕ) (prev : SectionPy.SectionPoint)
      (accRev : List SectionPy.SectionPoint) (b : SectionPy.SectionBounds) (s : ℚ)
      (li : ℕ) (out : SectionPy.LoopOut),
      SectionPy.fromGpxLoop dist ms mxs mi pts tail i prev accRev b s li = .ok out →
      (out.prev :: out.accRev).getLast? = (prev :: accRev).getLast? := by
  intro tail
  induction tail with
  | nil =>
    intro i prev accRev b s li out h
    simp only [SectionPy.fromGpxLoop, Except.ok.injEq] at h
    subst h
    rfl
  | cons p rest ih =>
    intro i prev accRev b s li out h
    simp only [SectionPy.fromGpxLoop] at h
    by_cases h1 : dist p prev < ms
    · rw [if_pos h1] at h
      exact ih _ _ _ _ _ _ _ h
    · rw [if_neg h1] at h
      by_cases h2 : p.time - prev.time = 0
      · rw [if_pos h2] at h
        exact absurd h (by simp)
      · rw [if_neg h2] at h
        by_cases h3 : dist p prev / (p.time - prev.time) > mxs
        · rw [if_pos h3] at h
          exact ih _ _ _ _ _ _ _ h
        · rw [if_neg h3] at h
          by_cases h4 : p.time - prev.time > mi
          · rw [if_pos h4] at h
            simp only [Except.ok.injEq] at h
            subst h
            rfl
          · rw [if_neg h4] at h
            have hrec := ih _ _ _ _ _ _ _ h
            rw [hrec, List.getLast?_cons_cons]

/-- The first input point of `from_gpx_track` is unconditionally the
first point of the returned section. -/
lemma from_gpx_track_head (dist : SectionPy.SectionPoint → SectionPy.SectionPoint → ℚ)
    (name : String) (ms mxs mi : ℚ) (p : SectionPy.SectionPoint)
    (rest : List SectionPy.SectionPoint) (sec : SectionPy.Section)
    (rem : List SectionPy.SectionPoint)
    (h : SectionPy.from_gpx_track dist name ms mxs mi (p :: rest) = .ok (sec, rem)) :
    sec.points.head? = some p := by
  simp only [SectionPy.from_gpx_track] at h
  cases hm : SectionPy.fromGpxLoop dist ms mxs mi (p :: rest) rest 0 p []
      (SectionPy.SectionBounds.from_point p) 0 0 with
  | error e => rw [hm] at h; simp at h
  | ok out =>
    rw [hm] at h
    simp only [Except.ok.injEq, Prod.mk.injEq] at h
    have hsec := h.1
    have hlast := fromGpxLoop_getLast dist ms mxs mi (p :: rest) _ _ _ _ _ _ _ _ hm
    rw [← hsec]
    simp only [List.head?_reverse]
    rw [hlast]
    rfl

/-- The loop of `process_section` only ever appends to the projected
list: the earliest point never changes. -/
lemma processLoop_getLast (dt it : ℝ) (pts : List RunPy.SectionPoint) :
    ∀ (tail : List RunPy.SectionPoint) (i : ℕ) (prev : RunPy.SectionPoint)
      (projRev : List RunPy.SectionPoint) (lower upper : RunPy.Point)
      (total ot : ℝ) (oc li : ℕ),
      ((RunPy.processLoop dt it pts tail i prev projRev lower upper total ot oc li).prev ::
        (RunPy.processLoop dt it pts tail i prev projRev lower upper total ot oc li).projRev).getLast? =
      (prev :: projRev).getLast? := by
  intro tail
  induction tail with
  | nil => intro i prev projRev lower upper total ot oc li; rfl
  | cons p rest ih =>
    intro i prev projRev lower upper total ot oc li
    simp only [RunPy.processLoop]
    by_cases h1 : RunPy.Point.distance p.position prev.position ≤ dt
    · rw [if_pos h1]
      exact ih _ _ _ _ _ _ _ _ _
    · rw [if_neg h1]
      by_cases h2 : p.time - prev.time > it
      · rw [if_pos h2]
      · rw [if_neg h2, ih, List.getLast?_cons_cons]

/-- The first input point of `process_section` is unconditionally the
first point of the returned section. -/
lemma process_section_head (dt it : ℝ) (p : RunPy.SectionPoint)
    (rest : List RunPy.SectionPoint) (sec : RunPy.Section)
    (rem : List RunPy.SectionPoint)
    (h : RunPy.process_section dt it (p :: rest) = some (sec, rem)) :
    sec.points.head? = some p := by
  simp only [RunPy.process_section, Option.some.injEq, Prod.mk.injEq] at h
  have hsec := h.1
  rw [← hsec]
  simp only [List.head?_reverse]
  rw [processLoop_getLast dt it (p :: rest) rest 0 p [] p.position p.position 0 0 0 0]
  rfl

/-- Claim C3: a point that passes the duplicate and speed filters but
whose elapsed time from the last accepted point exceeds `max_idle`
stops the builder: the returned state is exactly the state before that
point (the point is not accepted) and the remaining list is exactly the
suffix of the input starting at that point; moreover, on the next call
the first input point is unconditionally the first point of the section
(the new anchor).  The first and second conjuncts cover `section.py`'s
builder, the third and fourth `run.py`'s (whose break also keeps the
step distance in the total, see claim C4). -/
theorem idle_break_splits :
    (∀ (dist : SectionPy.SectionPoint → SectionPy.SectionPoint → ℚ)
       (ms mxs mi : ℚ) (pts rest : List SectionPy.SectionPoint)
       (i : ℕ) (prev : SectionPy.SectionPoint) (accRev : List SectionPy.SectionPoint)
       (b : SectionPy.SectionBounds) (s : ℚ) (li : ℕ) (p : SectionPy.SectionPoint),
      pts.drop (i + 1) = p :: rest →
      ms ≤ dist p prev →
      p.time - prev.time ≠ 0 →
      ¬ dist p prev / (p.time - prev.time) > mxs →
      p.time - prev.time > mi →
      SectionPy.fromGpxLoop dist ms mxs mi pts (p :: rest) i prev accRev b s li =
        .ok ⟨prev, accRev, b, s, p :: rest⟩) ∧
    (∀ (dist : SectionPy.SectionPoint → SectionPy.SectionPoint → ℚ)
       (name : String) (ms mxs mi : ℚ) (p : SectionPy.SectionPoint)
       (rest : List SectionPy.SectionPoint) (sec : SectionPy.Section)
       (rem : List SectionPy.SectionPoint),
      SectionPy.from_gpx_track dist name ms mxs mi (p :: rest) = .ok (sec, rem) →
      sec.points.head? = some p) ∧
    (∀ (dt it : ℝ) (pts rest : List RunPy.SectionPoint) (i : ℕ)
       (prev : RunPy.SectionPoint) (projRev : List RunPy.SectionPoint)
       (lower upper : RunPy.Point) (total ot : ℝ) (oc li : ℕ) (p : RunPy.SectionPoint),
      pts.drop (i + 1) = p :: rest →
      ¬ RunPy.Point.distance p.position prev.position ≤ dt →
      p.time - prev.time > it →
      RunPy.processLoop dt it pts (p :: rest) i prev projRev lower upper total ot oc li =
        ⟨prev, projRev, lower, upper,
          total + RunPy.Point.distance p.position prev.position, p :: rest⟩) ∧
    (∀ (dt it : ℝ) (p : RunPy.SectionPoint) (rest : List RunPy.SectionPoint)
       (sec : RunPy.Section) (rem : List RunPy.SectionPoint),
      RunPy.process_section dt it (p :: rest) = some (sec, rem) →
      sec.points.head? = some p) := by
  refine ⟨?_, from_gpx_track_head, ?_, process_section_head⟩
  · intro dist ms mxs mi pts rest i prev accRev b s li p h0 h1 h2 h3 h4
    simp only [SectionPy.fromGpxLoop]
    rw [if_neg (not_lt.mpr h1), if_neg h2, if_neg h3, if_pos h4, h0]
  · intro dt it pts rest i prev projRev lower upper total ot oc li p h0 h1 h2
    simp only [RunPy.processLoop]
    rw [if_neg h1, if_pos h2, h0]

/-- Witness for C3: a two-point input whose second point is 5 m away
after 100 s, against max_idle 30 (section.py) and idle_thresh 15
(run.py); the anchor conjuncts are applied to one-point calls. -/
theorem idle_break_splits_witness :
    (SectionPy.fromGpxLoop (fun _ _ => 5) 1 10 30 [⟨0, 0, 0, 0⟩, ⟨1, 1, 0, 100⟩]
        [⟨1, 1, 0, 100⟩] 0 ⟨0, 0, 0, 0⟩ [] ⟨0, 0, 0, 0⟩ 0 0 =
      .ok ⟨⟨0, 0, 0, 0⟩, [], ⟨0, 0, 0, 0⟩, 0, [⟨1, 1, 0, 100⟩]⟩) ∧
    ((SectionPy.Section.mk "n" [⟨7, 8, 0, 0⟩] ⟨0⟩ ⟨7, 7, 8, 8⟩).points.head? =
      some ⟨7, 8, 0, 0⟩) ∧
    (RunPy.processLoop 1 15 [⟨⟨0, 0⟩, 0, 0⟩, ⟨⟨0, 2⟩, 0, 100⟩] [⟨⟨0, 2⟩, 0, 100⟩] 0
        ⟨⟨0, 0⟩, 0, 0⟩ [] ⟨0, 0⟩ ⟨0, 0⟩ 0 0 0 0 =
      ⟨⟨⟨0, 0⟩, 0, 0⟩, [], ⟨0, 0⟩, ⟨0, 0⟩,
        0 + RunPy.Point.distance (⟨⟨0, 2⟩, 0, 100⟩ : RunPy.SectionPoint).position
          (⟨⟨0, 0⟩, 0, 0⟩ : RunPy.SectionPoint).position, [⟨⟨0, 2⟩, 0, 100⟩]⟩) := by
  have hd : RunPy.Point.distance
      (⟨⟨0, 2⟩, 0, 100⟩ : RunPy.SectionPoint).position
      (⟨⟨0, 0⟩, 0, 0⟩ : RunPy.SectionPoint).position = 2 := by
    simp only [RunPy.Point.distance]
    rw [show ((0 : ℝ) - 0) ^ 2 + ((2 : ℝ) - 0) ^ 2 = 2 ^ 2 by norm_num]
    exact Real.sqrt_sq (by norm_num)
  refine ⟨?_, ?_, ?_⟩
  · exact idle_break_splits.1 (fun _ _ => 5) 1 10 30 [⟨0, 0, 0, 0⟩, ⟨1, 1, 0, 100⟩] []
      0 ⟨0, 0, 0, 0⟩ [] ⟨0, 0, 0, 0⟩ 0 0 ⟨1, 1, 0, 100⟩ rfl (by norm_num) (by norm_num)
      (by norm_num) (by norm_num)
  · exact idle_break_splits.2.1 (fun _ _ => 0) "n" 1 10 30 ⟨7, 8, 0, 0⟩ []
      ⟨"n", [⟨7, 8, 0, 0⟩], ⟨0⟩, ⟨7, 7, 8, 8⟩⟩ [] rfl
  · exact idle_break_splits.2.2.1 1 15 [⟨⟨0, 0⟩, 0, 0⟩, ⟨⟨0, 2⟩, 0, 100⟩] [] 0
      ⟨⟨0, 0⟩, 0, 0⟩ [] ⟨0, 0⟩ ⟨0, 0⟩ 0 0 0 0 ⟨⟨0, 2⟩, 0, 100⟩ rfl
      (by rw [hd]; norm_num) (by norm_num)

/-- Every exit of the loop of `from_gpx_track` returns a remainder that
drops at least one element of the full input list. -/
lemma fromGpxLoop_remaining_drop
    (dist : SectionPy.SectionPoint → SectionPy.SectionPoint → ℚ)
    (ms mxs mi : ℚ) (pts : List SectionPy.SectionPoint) :
    ∀ (tail : List SectionPy.SectionPoint) (i : ℕ) (prev : SectionPy.SectionPoint)
      (accRev : List SectionPy.SectionPoint) (b : SectionPy.SectionBounds) (s : ℚ)
      (li : ℕ) (out : SectionPy.LoopOut),
      SectionPy.fromGpxLoop dist ms mxs mi pts tail i prev accRev b s li = .ok out →
      ∃ m, 1 ≤ m ∧ out.remaining = pts.drop m := by
  intro tail
  induction tail with
  | nil =>
    intro i prev accRev b s li out h
    simp only [SectionPy.fromGpxLoop, Except.ok.injEq] at h
    subst h
    exact ⟨li + 2, by omega, rfl⟩
  | cons p rest ih =>
    intro i prev accRev b s li out h
    simp only [SectionPy.fromGpxLoop] at h
    by_cases h1 : dist p prev < ms
    · rw [if_pos h1] at h
      exact ih _ _ _ _ _ _ _ h
    · rw [if_neg h1] at h
      by_cases h2 : p.time - prev.time = 0
      · rw [if_pos h2] at h
        exact absurd h (by simp)
      · rw [if_neg h2] at h
        by_cases h3 : dist p prev / (p.time - prev.time) > mxs
        · rw [if_pos h3] at h
          exact ih _ _ _ _ _ _ _ h
        · rw [if_neg h3] at h
          by_cases h4 : p.time - prev.time > mi
          · rw [if_pos h4] at h
            simp only [Except.ok.injEq] at h
            subst h
            exact ⟨i + 1, by omega, rfl⟩
          · rw [if_neg h4] at h
            exact ih _ _ _ _ _ _ _ h

/-- Every exit of the loop of `process_section` returns a remainder that
drops at least one element of the full input list. -/
lemma processLoop_remaining_drop (dt it : ℝ) (pts : List RunPy.SectionPoint) :
    ∀ (tail : List RunPy.SectionPoint) (i : ℕ) (prev : RunPy.SectionPoint)
      (projRev : List RunPy.SectionPoint) (lower upper : RunPy.Point)
      (total ot : ℝ) (oc li : ℕ),
      ∃ m, 1 ≤ m ∧
        (RunPy.processLoop dt it pts tail i prev projRev lower upper total ot oc li).remaining =
          pts.drop m := by
  intro tail
  induction tail with
  | nil =>
    intro i prev projRev lower upper total ot oc li
    exact ⟨li + 2, by omega, rfl⟩
  | cons p rest ih =>
    intro i prev projRev lower upper total ot oc li
    simp only [RunPy.processLoop]
    by_cases h1 : RunPy.Point.distance p.position prev.position ≤ dt
    · rw [if_pos h1]
      exact ih _ _ _ _ _ _ _ _ _
    · rw [if_neg h1]
      by_cases h2 : p.time - prev.time > it
      · rw [if_pos h2]
        exact ⟨i + 1, by omega, rfl⟩
      · rw [if_neg h2]
        exact ih _ _ _ _ _ _ _ _ _

/-- Claim C10: on every non-empty input, each builder returns a
remainder that is a drop of at least one element of the input — its
length is at most the input length minus one — so the driving loop that
re-invokes the builder on the remainder until it is empty terminates
after at most one iteration per input point.  The first conjunct covers
`section.py`'s `from_gpx_track`, the second `run.py`'s
`process_section`. -/
theorem remaining_strictly_shrinks :
    (∀ (dist : SectionPy.SectionPoint → SectionPy.SectionPoint → ℚ)
       (name : String) (ms mxs mi : ℚ) (p0 : SectionPy.SectionPoint)
       (tail : List SectionPy.SectionPoint) (sec : SectionPy.Section)
       (rem : List SectionPy.SectionPoint),
      SectionPy.from_gpx_track dist name ms mxs mi (p0 :: tail) = .ok (sec, rem) →
      rem.length ≤ tail.length ∧ ∃ m, 1 ≤ m ∧ rem = (p0 :: tail).drop m) ∧
    (∀ (dt it : ℝ) (p0 : RunPy.SectionPoint) (tail : List RunPy.SectionPoint)
       (sec : RunPy.Section) (rem : List RunPy.SectionPoint),
      RunPy.process_section dt it (p0 :: tail) = some (sec, rem) →
      rem.length ≤ tail.length ∧ ∃ m, 1 ≤ m ∧ rem = (p0 :: tail).drop m) := by
  constructor
  · intro dist name ms mxs mi p0 tail sec rem h
    simp only [SectionPy.from_gpx_track] at h
    cases hm : SectionPy.fromGpxLoop dist ms mxs mi (p0 :: tail) tail 0 p0 []
        (SectionPy.SectionBounds.from_point p0) 0 0 with
    | error e => rw [hm] at h; simp at h
    | ok out =>
      rw [hm] at h
      simp only [Except.ok.injEq, Prod.mk.injEq] at h
      obtain ⟨m, hm1, hm2⟩ :=
        fromGpxLoop_remaining_drop dist ms mxs mi (p0 :: tail) _ _ _ _ _ _ _ _ hm
      have hrem : rem = (p0 :: tail).drop m := h.2 ▸ hm2
      refine ⟨?_, m, hm1, hrem⟩
      rw [hrem, List.length_drop]
      simp only [List.length_cons]
      omega
  · intro dt it p0 tail sec rem h
    simp only [RunPy.process_section, Option.some.injEq, Prod.mk.injEq] at h
    obtain ⟨m, hm1, hm2⟩ :=
      processLoop_remaining_drop dt it (p0 :: tail) tail 0 p0 [] p0.position p0.position
        0 0 0 0
    have hrem : rem = (p0 :: tail).drop m := h.2 ▸ hm2
    refine ⟨?_, m, hm1, hrem⟩
    rw [hrem, List.length_drop]
    simp only [List.length_cons]
    omega

/-- Witness for C10: one-point inputs to both builders, whose remainder
is empty. -/
theorem remaining_strictly_shrinks_witness :
    (([] : List SectionPy.SectionPoint).length ≤ ([] : List SectionPy.SectionPoint).length ∧
      ∃ m, 1 ≤ m ∧ ([] : List SectionPy.SectionPoint) =
        ([(⟨7, 8, 0, 0⟩ : SectionPy.SectionPoint)]).drop m) ∧
    (([] : List RunPy.SectionPoint).length ≤ ([] : List RunPy.SectionPoint).length ∧
      ∃ m, 1 ≤ m ∧ ([] : List RunPy.SectionPoint) =
        ([(⟨⟨0, 0⟩, 0, 0⟩ : RunPy.SectionPoint)]).drop m) :=
  ⟨remaining_strictly_shrinks.1 (fun _ _ => 0) "n" 1 10 30 ⟨7, 8, 0, 0⟩ []
      ⟨"n", [⟨7, 8, 0, 0⟩], ⟨0⟩, ⟨7, 7, 8, 8⟩⟩ [] rfl,
   remaining_strictly_shrinks.2 1 15 ⟨⟨0, 0⟩, 0, 0⟩ []
      ⟨[⟨⟨0, 0⟩, 0, 0⟩], (⟨0, 0⟩, ⟨0, 0⟩), 0⟩ [] rfl⟩

/-- Claim C5: in `section.py`'s builder, a point at or beyond
`min_spacing` from the last accepted point whose implied speed
`distance / elapsed` exceeds `max_speed` is discarded — the loop
continues on the rest of the input with the last accepted point, the
collected list, the bounds and the distance total all unchanged, so the
next point's distance and speed are computed from the last accepted
point, not from the rejected outlier. -/
theorem speed_filter_discards
    (dist : SectionPy.SectionPoint → SectionPy.SectionPoint → ℚ)
    (ms mxs mi : ℚ) (pts rest : List SectionPy.SectionPoint)
    (i : ℕ) (prev : SectionPy.SectionPoint) (accRev : List SectionPy.SectionPoint)
    (b : SectionPy.SectionBounds) (s : ℚ) (li : ℕ) (p : SectionPy.SectionPoint)
    (h1 : ms ≤ dist p prev) (h2 : p.time - prev.time ≠ 0)
    (h3 : dist p prev / (p.time - prev.time) > mxs) :
    SectionPy.fromGpxLoop dist ms mxs mi pts (p :: rest) i prev accRev b s li =
      SectionPy.fromGpxLoop dist ms mxs mi pts rest (i + 1) prev accRev b s i := by
  simp only [SectionPy.fromGpxLoop]
  rw [if_neg (not_lt.mpr h1), if_neg h2, if_pos h3]

/-- Witness for C5: the spec's speed-outlier scenario — a point 500 m
away after 1 s (speed 500 m/s) against max_speed 20. -/
theorem speed_filter_discards_witness :
    ((1 : ℚ) ≤ (fun (_ _ : SectionPy.SectionPoint) => (500 : ℚ)) ⟨1, 1, 0, 1⟩ ⟨0, 0, 0, 0⟩) ∧
    ((⟨1, 1, 0, 1⟩ : SectionPy.SectionPoint).time - (⟨0, 0, 0, 0⟩ : SectionPy.SectionPoint).time ≠ 0) ∧
    (SectionPy.fromGpxLoop (fun _ _ => 500) 1 20 30 [] [⟨1, 1, 0, 1⟩] 0 ⟨0, 0, 0, 0⟩ []
        ⟨0, 0, 0, 0⟩ 0 0 =
      SectionPy.fromGpxLoop (fun _ _ => 500) 1 20 30 [] [] 1 ⟨0, 0, 0, 0⟩ []
        ⟨0, 0, 0, 0⟩ 0 0) :=
  ⟨by norm_num, by norm_num,
   speed_filter_discards _ _ _ _ _ _ _ _ _ _ _ _ _
     (by norm_num) (by norm_num) (by norm_num)⟩
